import Mathlib

/-!
Shallow embedding of the forms admin service of the topfundmanager
repository: the identity/session handlers (`login.js`, `verify.js`), the
submission intake handler (`submit.js`), the admin read handlers
(submissions and me), and the shared helpers of
`functions/api/forms/utils.js`.  Timestamps are modeled as natural
numbers (milliseconds); ISO-string comparison in the row-store queries
is chronological comparison, so `expires_at=gt.now` becomes
`now < expires_at`.  The SHA-256 digest is an abstract parameter
`hash : String → String`; handlers only build its input and compare its
output.  The remote row store is modeled as explicit lists of rows, and
a row-store query is the corresponding filter/order/limit on the list.
-/

namespace TFM

/-- JavaScript whitespace characters relevant to `String.prototype.trim`
(the common ASCII subset). -/
def jsWs (c : Char) : Bool :=
  c = ' ' || c = '\t' || c = '\n' || c = '\r'

/-- Trim of a character list: drop leading and trailing whitespace,
modeling `String.prototype.trim`. -/
def trimChars (l : List Char) : List Char :=
  (((l.dropWhile jsWs).reverse).dropWhile jsWs).reverse

/-- Models `s.trim()` from the JavaScript source. -/
def jsTrim (s : String) : String := ⟨trimChars s.data⟩

/-- ASCII lower-casing of a single character, as `toLowerCase` acts on
the ASCII range used by email addresses. -/
def lowerChar (c : Char) : Char :=
  if 'A' ≤ c ∧ c ≤ 'Z' then Char.ofNat (c.toNat + 32) else c

/-- Models `s.toLowerCase()` from the JavaScript source. -/
def jsToLower (s : String) : String := ⟨s.data.map lowerChar⟩

/-- utils.js: `normalizeEmail = (email) => (email || '').trim().toLowerCase()`. -/
def normalizeEmail (email : String) : String := jsToLower (jsTrim email)

/-- JS `a || b` on strings: `b` when `a` is empty (falsy), else `a`. -/
def jsOrElse (a b : String) : String := if a = "" then b else a

/-- utils.js `getAdminEmails`: split the configured allow-list on commas,
normalize each entry, and drop empty entries (`filter(Boolean)`). -/
def getAdminEmails (raw : String) : List String :=
  ((raw.splitOn ",").map normalizeEmail).filter (fun e => e ≠ "")

/-- utils.js `isAllowedAdmin`: membership of the normalized email in the
configured allow-list. -/
def isAllowedAdmin (email : String) (adminEmailsRaw : String) : Bool :=
  (getAdminEmails adminEmailsRaw).contains (normalizeEmail email)

/-- utils.js line 57: the message of the error thrown by
`supabaseFetchJson` when the row store responds non-2xx.  The upstream
status code is in scope at the throw site but is not part of the
message; only the upstream response body text is interpolated. -/
def supabaseErrorMessage (upstreamStatus : Nat) (upstreamBody : String) : String :=
  "Supabase error: " ++ upstreamBody

/-- An `AuthCode` row of the `forms_auth_codes` collection.
`consumed_at` is nullable; times are milliseconds. -/
structure AuthCodeRow where
  id : String
  email : String
  code_hash : String
  expires_at : Nat
  consumed_at : Option Nat
  ip : String
  user_agent : String
deriving DecidableEq

/-- A `Session` row of the `forms_sessions` collection.  The `id` column
is store-assigned; inserts are modeled with id 0 since no handler reads
it back other than as an opaque value. -/
structure SessionRow where
  id : Nat
  email : String
  token_hash : String
  expires_at : Nat
  ip : String
  user_agent : String
  last_used_at : Nat
deriving DecidableEq

/-- A `Site` row of the `forms_sites` collection.  `allowed_origins` is
nullable in the store; `none` models SQL NULL.  The JSON-string variant
accepted by `getAllowedOrigins` is normalized by this store model to the
parsed array. -/
structure SiteRow where
  site_id : String
  site_name : String
  site_key : String
  allowed_origins : Option (List String)
deriving DecidableEq

/-- A `Submission` row of the `forms_submissions` collection.  The `id`
column is store-assigned (modeled as 0 at insert; the read path treats
it opaquely). -/
structure SubmissionRow where
  id : Nat
  site_id : String
  form_id : Option String
  data : List (String × String)
  origin : String
  ip : String
  user_agent : String
  page_url : Option String
  referrer : Option String
  submitted_at : Nat
deriving DecidableEq

/-- utils.js `getAllowedOrigins`: NULL becomes the empty list, an array
is returned as is. -/
def getAllowedOrigins (site : SiteRow) : List String :=
  site.allowed_origins.getD []

/-- A handler response: HTTP status, the `success` flag, the `error`
message (empty on success), scalar payload entries, row payload, the
`Set-Cookie` header if any, and the extra headers attached. -/
structure ApiResponse where
  status : Nat
  ok : Bool
  message : String
  data : List (String × String)
  rows : List (List (String × String))
  setCookie : Option String
  headers : List (String × String)
deriving DecidableEq

/-- utils.js `errorResponse`: a JSON body `{success: false, error: message}`
with the given status and headers. -/
def errorResponse (status : Nat) (message : String) (headers : List (String × String)) : ApiResponse :=
  ⟨status, false, message, [], [], none, headers⟩

/-- The digest input for a one-time code: `` `code:${code}:${email}:${challengeId}` ``. -/
def codeBinding (code email challengeId : String) : String :=
  "code:" ++ code ++ ":" ++ email ++ ":" ++ challengeId

/-- The digest input for a session token: `` `session:${token}` ``. -/
def sessionBinding (token : String) : String :=
  "session:" ++ token

/-- The `forms_auth_codes` row inserted by login.js lines 35-46: id is
the challenge id, the code enters only through the digest of its
binding, and `consumed_at` is absent from the insert (NULL by default). -/
def loginAuthRow (hash : String → String) (code email challengeId : String)
    (expiresAt : Nat) (ip ua : String) : AuthCodeRow :=
  { id := challengeId
    email := email
    code_hash := hash (codeBinding code email challengeId)
    expires_at := expiresAt
    consumed_at := none
    ip := ip
    user_agent := ua }

/-- The `forms_sessions` row inserted by verify.js lines 53-64: the token
enters only through the digest of its binding. -/
def sessionRowOf (hash : String → String) (token email : String)
    (expiresAt : Nat) (ip ua : String) (now : Nat) : SessionRow :=
  { id := 0
    email := email
    token_hash := hash (sessionBinding token)
    expires_at := expiresAt
    ip := ip
    user_agent := ua
    last_used_at := now }

/-- utils.js `buildSessionCookie`. -/
def buildSessionCookie (cookieName token : String) (maxAgeSeconds : Nat) : String :=
  cookieName ++ "=" ++ token ++ "; HttpOnly; Secure; SameSite=Strict; Path=/; Max-Age=" ++
    toString maxAgeSeconds

/-- utils.js `buildCorsHeaders`: the allow-origin value mirrors the
request origin only when an origin is present and either the allow-list
is empty (allow any) or the origin is listed; otherwise it is the
literal string "null". -/
def buildCorsHeaders (origin : String) (allowedOrigins : List String) : List (String × String) :=
  [("Access-Control-Allow-Origin",
      if origin ≠ "" ∧ (allowedOrigins.isEmpty ∨ origin ∈ allowedOrigins) then origin else "null"),
   ("Access-Control-Allow-Methods", "POST, OPTIONS"),
   ("Access-Control-Allow-Headers", "Content-Type, X-Forms-Site-Key"),
   ("Access-Control-Max-Age", "86400"),
   ("Vary", "Origin")]

/-- Split a character list at every occurrence of `sep`, modeling
JavaScript `String.prototype.split` with a single-character separator
(`"".split(sep)` yields `[""]`). -/
def splitOnChar (sep : Char) : List Char → List (List Char)
  | [] => [[]]
  | c :: rest =>
    let r := splitOnChar sep rest
    if c = sep then [] :: r
    else
      match r with
      | [] => [[c]]
      | h :: t => (c :: h) :: t

/-- utils.js `parseCookies`: split the header on `;`, trim each pair,
split on `=`, skip empty keys, and record key/value pairs in order.
`decodeURIComponent` is modeled as the identity, which it is on the
percent-free base64url tokens this service issues. -/
def parseCookies (header : String) : List (String × String) :=
  if header = "" then []
  else
    (splitOnChar ';' header.data).foldl
      (fun acc pairChars =>
        match splitOnChar '=' (trimChars pairChars) with
        | [] => acc
        | key :: rest =>
          if key = [] then acc
          else acc ++ [(⟨key⟩, ⟨List.intercalate ['='] rest⟩)])
      []

/-- Object-style lookup over the parsed cookie pairs: assignment in
insertion order means the last pair with a given key wins. -/
def cookieValue (cookies : List (String × String)) (name : String) : Option String :=
  ((cookies.filter (fun p => p.1 = name)).getLast?).map (fun p => p.2)

/-- The outcome of the login handler: the response and the auth-code
collection after the request. -/
structure LoginOutcome where
  resp : ApiResponse
  authDb : List AuthCodeRow
deriving DecidableEq

/-- login.js `onRequestPost` on the path where the row store and the
mail provider succeed.  `code`, `challengeId`, `now`, `ip` and `ua` are
the values the handler samples from its environment (crypto source,
clock, request metadata). -/
def loginHandler (hash : String → String) (adminEmailsRaw : String) (ttlMinutes : Nat)
    (authDb : List AuthCodeRow) (emailRaw : String) (now : Nat)
    (code challengeId ip ua : String) : LoginOutcome :=
  let email := normalizeEmail emailRaw
  if email = "" then
    ⟨errorResponse 400 "Email is required." [], authDb⟩
  else if isAllowedAdmin email adminEmailsRaw = false then
    ⟨errorResponse 403 "Email is not authorized." [], authDb⟩
  else
    let expiresAt := now + ttlMinutes * 60 * 1000
    ⟨⟨200, true, "", [("challengeId", challengeId), ("expiresInMinutes", toString ttlMinutes)],
        [], none, []⟩,
      authDb ++ [loginAuthRow hash code email challengeId expiresAt ip ua]⟩

/-- The response returned by login.js when a row-store write fails: the
catch block maps the thrown error to
`errorResponse(500, error.message || 'Unable to send code.')`. -/
def loginStoreFailureResponse (upstreamStatus : Nat) (upstreamBody : String) : ApiResponse :=
  errorResponse 500
    (jsOrElse (supabaseErrorMessage upstreamStatus upstreamBody) "Unable to send code.") []

/-- The outcome of the verify handler: the response and the two
collections it may have written. -/
structure VerifyOutcome where
  resp : ApiResponse
  authDb : List AuthCodeRow
  sessionDb : List SessionRow
deriving DecidableEq

/-- The filter applied by the verify query on `forms_auth_codes`:
`email=eq.<email>&id=eq.<challengeId>&consumed_at=is.null&expires_at=gt.<now>`. -/
def verifyQueryPred (email cid : String) (now : Nat) (r : AuthCodeRow) : Bool :=
  r.email = email ∧ r.id = cid ∧ r.consumed_at = none ∧ now < r.expires_at

/-- The 200 response of verify.js: `{success: true}` plus the session
cookie (`Max-Age` is the session TTL in seconds). -/
def verifySuccessResponse (cookieName token : String) (ttlHours : Nat) : ApiResponse :=
  ⟨200, true, "", [], [], some (buildSessionCookie cookieName token (ttlHours * 3600)), []⟩

/-- verify.js `onRequestPost` on the path where the row store succeeds.
The handler normalizes/trims the three body fields, returns 400 when one
is empty, queries for a matching unconsumed unexpired row (limit 1),
recomputes the code digest and compares it with the stored one, and only
then marks the row consumed, stores a session row, and sets the cookie.
`token` is the value the handler samples from the crypto source. -/
def verifyHandler (hash : String → String) (cookieName : String) (ttlHours : Nat)
    (authDb : List AuthCodeRow) (sessionDb : List SessionRow)
    (emailRaw codeRaw cidRaw : String) (now : Nat) (token ip ua : String) : VerifyOutcome :=
  let email := normalizeEmail emailRaw
  let code := jsTrim codeRaw
  let cid := jsTrim cidRaw
  if email = "" ∨ code = "" ∨ cid = "" then
    ⟨errorResponse 400 "Email, code, and challenge ID are required." [], authDb, sessionDb⟩
  else
    match (authDb.filter (verifyQueryPred email cid now)).head? with
    | none => ⟨errorResponse 401 "Invalid or expired code." [], authDb, sessionDb⟩
    | some record =>
      if hash (codeBinding code email cid) ≠ record.code_hash then
        ⟨errorResponse 401 "Invalid or expired code." [], authDb, sessionDb⟩
      else
        let authDb' := authDb.map
          (fun q => if q.id = cid then { q with consumed_at := some now } else q)
        let expiresAt := now + ttlHours * 3600 * 1000
        ⟨verifySuccessResponse cookieName token ttlHours,
          authDb',
          sessionDb ++ [sessionRowOf hash token email expiresAt ip ua now]⟩

/-- The outcome of the submit handler: the response and the submission
collection after the request. -/
structure SubmitOutcome where
  resp : ApiResponse
  subDb : List SubmissionRow
deriving DecidableEq

/-- The headers submit.js attaches before the site row is known: an echo
of the request origin when one is present, nothing otherwise. -/
def initialCorsHeaders (originHeader : String) : List (String × String) :=
  if originHeader ≠ "" then
    [("Access-Control-Allow-Origin", originHeader), ("Vary", "Origin")]
  else []

/-- submit.js `onRequestPost` on the path where the row store succeeds.
`originHeader` is the `Origin` header with the empty string for an
absent header (`headers.get('origin') || ''`); `siteKeyHeader` is the
`X-Forms-Site-Key` header (`none` when absent; the source's
`!siteKey || siteKey !== site.site_key` treats an absent and an empty
header identically, modeled with `getD ""`).  `data` is the body's
`data` member: a JSON object is modeled as a key/value list and is the
only truthy shape this field takes. -/
def submitHandler (siteDb : List SiteRow) (subDb : List SubmissionRow)
    (originHeader : String) (siteKeyHeader : Option String)
    (siteIdRaw : String) (formIdRaw : Option String)
    (data : Option (List (String × String)))
    (metaPageUrl metaReferrer : Option String)
    (referrerHeader ip ua : String) (now : Nat) : SubmitOutcome :=
  let cors0 := initialCorsHeaders originHeader
  let siteId := jsTrim siteIdRaw
  let formId : Option String :=
    match formIdRaw with
    | some f => if f = "" then none else some (jsTrim f)
    | none => none
  if siteId = "" then
    ⟨errorResponse 400 "siteId and data are required." cors0, subDb⟩
  else
    match data with
    | none => ⟨errorResponse 400 "siteId and data are required." cors0, subDb⟩
    | some d =>
      match (siteDb.filter (fun s => s.site_id = siteId)).head? with
      | none => ⟨errorResponse 401 "Invalid site." cors0, subDb⟩
      | some site =>
        let allowed := getAllowedOrigins site
        let cors := buildCorsHeaders originHeader allowed
        let siteKey := siteKeyHeader.getD ""
        if siteKey = "" ∨ siteKey ≠ site.site_key then
          ⟨errorResponse 401 "Invalid site key." cors, subDb⟩
        else if allowed ≠ [] ∧ originHeader ≠ "" ∧ originHeader ∉ allowed then
            ⟨errorResponse 403 "Origin not allowed." cors, subDb⟩
          else
            ⟨⟨200, true, "", [], [], none, cors⟩,
              subDb ++ [{ id := 0
                          site_id := siteId
                          form_id := formId
                          data := d
                          origin := originHeader
                          ip := ip
                          user_agent := ua
                          page_url :=
                            match metaPageUrl with
                            | some p => if p = "" then none else some p
                            | none => none
                          referrer :=
                            match jsOrElse (metaReferrer.getD "") referrerHeader with
                            | r => if r = "" then none else some r
                          submitted_at := now }]⟩

/-- The session facts `getSessionFromRequest` selects
(`select=id,email,expires_at`; the id is not used by its callers). -/
structure SessionInfo where
  email : String
  expires_at : Nat
deriving DecidableEq

/-- utils.js `getSessionFromRequest`.  The row-store refresh of
`last_used_at` is the awaited PATCH at lines 190-194; its outcome is the
`patchOutcome` parameter, and because the source has no try/catch around
it, an error outcome propagates to the caller (`Except.error`). -/
def getSessionFromRequest (hash : String → String) (cookieName cookieHeader : String)
    (sessionDb : List SessionRow) (now : Nat)
    (patchOutcome : Except String Unit) : Except String (Option SessionInfo) :=
  match cookieValue (parseCookies cookieHeader) cookieName with
  | none => .ok none
  | some token =>
    if token = "" then .ok none
    else
      let tokenHash := hash (sessionBinding token)
      match (sessionDb.filter
          (fun s => s.token_hash = tokenHash ∧ now < s.expires_at)).head? with
      | none => .ok none
      | some s =>
        match patchOutcome with
        | .error e => .error e
        | .ok _ => .ok (some ⟨s.email, s.expires_at⟩)

/-- The `/api/forms/me` GET handler: session-gated echo of the
authenticated email and expiry; the surrounding try/catch maps a thrown
error to a 500 with `error.message || 'Unable to load session.'`. -/
def meHandler (hash : String → String) (cookieName cookieHeader : String)
    (sessionDb : List SessionRow) (now : Nat)
    (patchOutcome : Except String Unit) : ApiResponse :=
  match getSessionFromRequest hash cookieName cookieHeader sessionDb now patchOutcome with
  | .error e => errorResponse 500 (jsOrElse e "Unable to load session.") []
  | .ok none => errorResponse 401 "Unauthorized" []
  | .ok (some s) =>
    ⟨200, true, "", [("email", s.email), ("expiresAt", toString s.expires_at)], [], none, []⟩

/-- Longest digit prefix of a character list as a number, `none` when
the first character is not a digit: the core of `Number.parseInt`. -/
def digitsPrefixVal (l : List Char) : Option Nat :=
  let ds := l.takeWhile (fun c => '0' ≤ c ∧ c ≤ '9')
  if ds = [] then none
  else some (ds.foldl (fun a c => 10 * a + (c.toNat - 48)) 0)

/-- `Number.parseInt(s, 10)`: skip leading whitespace, an optional sign,
then the longest digit prefix; `none` models NaN. -/
def jsParseInt (s : String) : Option Int :=
  match s.data.dropWhile jsWs with
  | '-' :: rest => (digitsPrefixVal rest).map (fun n => -(n : Int))
  | '+' :: rest => (digitsPrefixVal rest).map (fun n => (n : Int))
  | l => (digitsPrefixVal l).map (fun n => (n : Int))

/-- The effective limit computed by the submissions handler:
`limitParam = url.searchParams.get('limit') || '50'` followed by
`Math.min(Math.max(Number.parseInt(limitParam, 10) || 50, 1), 200)`.
`none` models an absent query parameter; NaN and 0 are falsy and fall
back to 50. -/
def effectiveLimit (limitParam : Option String) : Int :=
  let lp := match limitParam with
    | none => "50"
    | some s => jsOrElse s "50"
  let v : Int := match jsParseInt lp with
    | none => 50
    | some n => if n = 0 then 50 else n
  min (max v 1) 200

/-- The column projection of the submissions query
(`select=id,site_id,form_id,submitted_at,origin,ip,page_url,referrer,data`). -/
def submissionsSelect : List String :=
  ["id", "site_id", "form_id", "submitted_at", "origin", "ip", "page_url", "referrer", "data"]

/-- The ordering requested by `order=submitted_at.desc`: newest first. -/
def byNewest (a b : SubmissionRow) : Prop :=
  b.submitted_at ≤ a.submitted_at

instance : DecidableRel byNewest :=
  fun a b => inferInstanceAs (Decidable (b.submitted_at ≤ a.submitted_at))

instance : IsTotal SubmissionRow byNewest :=
  ⟨fun a b => le_total b.submitted_at a.submitted_at⟩

instance : IsTrans SubmissionRow byNewest :=
  ⟨fun _ _ _ hab hbc => le_trans hbc hab⟩

/-- The row-store evaluation of the submissions query: optional site
filter, `order=submitted_at.desc` (modeled as a sort by `byNewest`), and
`limit`. -/
def listSubmissions (subDb : List SubmissionRow) (limit : Nat)
    (siteId : Option String) : List SubmissionRow :=
  let rows := match siteId with
    | some sid => subDb.filter (fun r => r.site_id = sid)
    | none => subDb
  (List.insertionSort byNewest rows).take limit

/-- The value the store renders for one selected column of a submission
row (Option columns render NULL as the empty rendering; the `data`
object is rendered as its key/value pairs). -/
def submissionField (r : SubmissionRow) (c : String) : String :=
  if c = "id" then toString r.id
  else if c = "site_id" then r.site_id
  else if c = "form_id" then r.form_id.getD ""
  else if c = "submitted_at" then toString r.submitted_at
  else if c = "origin" then r.origin
  else if c = "ip" then r.ip
  else if c = "page_url" then r.page_url.getD ""
  else if c = "referrer" then r.referrer.getD ""
  else if c = "data" then String.intercalate "," (r.data.map (fun kv => kv.1 ++ "=" ++ kv.2))
  else ""

/-- The object returned for one submission row: exactly the selected
columns, in select order. -/
def projectSubmission (r : SubmissionRow) : List (String × String) :=
  submissionsSelect.map (fun c => (c, submissionField r c))

/-- The `/api/forms/submissions` GET handler on the path where the
row-store read succeeds: session gate, limit clamp, optional site
filter (`if (siteId)` treats the empty string as absent), ordered and
projected rows. -/
def submissionsHandler (hash : String → String) (cookieName cookieHeader : String)
    (sessionDb : List SessionRow) (subDb : List SubmissionRow) (now : Nat)
    (patchOutcome : Except String Unit)
    (limitParam siteIdParam : Option String) : ApiResponse :=
  match getSessionFromRequest hash cookieName cookieHeader sessionDb now patchOutcome with
  | .error e => errorResponse 500 (jsOrElse e "Unable to load submissions.") []
  | .ok none => errorResponse 401 "Unauthorized" []
  | .ok (some _) =>
    let limit := (effectiveLimit limitParam).toNat
    let sid : Option String :=
      match siteIdParam with
      | some s => if s = "" then none else some s
      | none => none
    ⟨200, true, "", [], (listSubmissions subDb limit sid).map projectSubmission, none, []⟩

/-- The decimal digit character for a value below ten. -/
def digitChar (d : Nat) : Char :=
  match d with
  | 0 => '0' | 1 => '1' | 2 => '2' | 3 => '3' | 4 => '4'
  | 5 => '5' | 6 => '6' | 7 => '7' | 8 => '8' | _ => '9'

/-- Decimal representation with explicit fuel (structural recursion so
that concrete instances evaluate); `jsNatRepr` supplies sufficient
fuel. -/
def jsNatReprGo (fuel n : Nat) : List Char :=
  match fuel with
  | 0 => []
  | f + 1 => if n < 10 then [digitChar n] else jsNatReprGo f (n / 10) ++ [digitChar (n % 10)]

/-- `(n).toString()` for a natural number: its decimal digits. -/
def jsNatRepr (n : Nat) : List Char := jsNatReprGo (n + 1) n

/-- Numeric value of a digit string, most significant first. -/
def valDigits (l : List Char) : Nat :=
  l.foldl (fun a c => 10 * a + (c.toNat - 48)) 0

/-- `padStart(target, c)` on a character list. -/
def padStart (l : List Char) (target : Nat) (c : Char) : List Char :=
  List.replicate (target - l.length) c ++ l

/-- utils.js `generateCode` after the 32-bit sample is fixed:
`(x % 1000000).toString().padStart(6, '0')`. -/
def pad6 (n : Nat) : String := ⟨padStart (jsNatRepr n) 6 '0'⟩

/-- The code produced when the crypto source yields the 32-bit value `x`. -/
def generateCodeOf (x : Nat) : String := pad6 (x % 1000000)

/-- The number of 32-bit samples that produce the code string `c`. -/
def codeCount (c : String) : Nat :=
  ((Finset.range 4294967296).filter (fun x => generateCodeOf x = c)).card

/-- Two members of a list with pairwise-distinct keys that share a key
are the same member. -/
theorem key_inj_of_pairwise {α κ : Type} (key : α → κ) {l : List α}
    (h : l.Pairwise (fun a b => key a ≠ key b)) {a b : α}
    (ha : a ∈ l) (hb : b ∈ l) (hk : key a = key b) : a = b := by
  induction l with
  | nil => cases ha
  | cons c t ih =>
    rcases List.pairwise_cons.mp h with ⟨hc, ht⟩
    rcases List.mem_cons.mp ha with rfl | ha'
    · rcases List.mem_cons.mp hb with rfl | hb'
      · rfl
      · exact absurd hk (hc b hb')
    · rcases List.mem_cons.mp hb with rfl | hb'
      · exact absurd hk.symm (hc a ha')
      · exact ih ht ha' hb'

/-- When `a` is the unique member of `l` satisfying `p`, the first match
of the filter is `a`. -/
theorem head_filter_unique {α : Type} {p : α → Bool} {l : List α} {a : α}
    (ha : a ∈ l) (hpa : p a = true) (huniq : ∀ b ∈ l, p b = true → b = a) :
    (l.filter p).head? = some a := by
  induction l with
  | nil => cases ha
  | cons c t ih =>
    by_cases hc : p c = true
    · have hca : c = a := huniq c (List.mem_cons_self c t) hc
      subst hca
      simp [List.filter_cons, hc]
    · have hat : a ∈ t := by
        rcases List.mem_cons.mp ha with rfl | h'
        · exact absurd hpa hc
        · exact h'
      have := ih hat (fun b hb hpb => huniq b (List.mem_cons_of_mem _ hb) hpb)
      simpa [List.filter_cons, hc] using this

/-- When no member of `l` satisfies `p`, the filter has no first match. -/
theorem head_filter_none {α : Type} {p : α → Bool} {l : List α}
    (h : ∀ b ∈ l, ¬ p b = true) : (l.filter p).head? = none := by
  have he : l.filter p = [] := List.filter_eq_nil_iff.mpr h
  simp [he]

/-- A string with a nonempty left part of an append is nonempty. -/
theorem append_ne_empty_left (a b : String) (h : a ≠ "") : a ++ b ≠ "" := by
  intro he
  apply h
  have hd : a.data ++ b.data = ([] : List Char) := by
    have h2 := congrArg String.data he
    simpa using h2
  have ha : a.data = [] := (List.append_eq_nil.mp hd).1
  cases a
  simp_all

/-- Success computation of the verify handler: when the auth-code
collection (with store-unique ids) holds a row matching the query
filter whose stored digest equals the recomputed one, the handler
consumes that row, appends a session row, and returns the 200 response
with the session cookie. -/
theorem verifyHandler_success (hash : String → String) (cookieName : String) (ttlHours : Nat)
    {authDb : List AuthCodeRow} (sessionDb : List SessionRow)
    {emailRaw codeRaw cidRaw : String} {now : Nat} (token ip ua : String) {r : AuthCodeRow}
    (hids : authDb.Pairwise (fun a b => a.id ≠ b.id))
    (hne : ¬ normalizeEmail emailRaw = "") (hnc : ¬ jsTrim codeRaw = "")
    (hnid : ¬ jsTrim cidRaw = "")
    (hr : r ∈ authDb) (hid : r.id = jsTrim cidRaw) (hem : r.email = normalizeEmail emailRaw)
    (hcon : r.consumed_at = none) (hexp : now < r.expires_at)
    (hhash : r.code_hash =
      hash (codeBinding (jsTrim codeRaw) (normalizeEmail emailRaw) (jsTrim cidRaw))) :
    verifyHandler hash cookieName ttlHours authDb sessionDb emailRaw codeRaw cidRaw now token ip ua =
      ⟨verifySuccessResponse cookieName token ttlHours,
        authDb.map (fun q =>
          if q.id = jsTrim cidRaw then { q with consumed_at := some now } else q),
        sessionDb ++ [sessionRowOf hash token (normalizeEmail emailRaw)
          (now + ttlHours * 3600 * 1000) ip ua now]⟩ := by
  have hpred : verifyQueryPred (normalizeEmail emailRaw) (jsTrim cidRaw) now r = true := by
    simp [verifyQueryPred, hem, hid, hcon, hexp]
  have huniq : ∀ b ∈ authDb,
      verifyQueryPred (normalizeEmail emailRaw) (jsTrim cidRaw) now b = true → b = r := by
    intro b hb hpb
    simp only [verifyQueryPred, decide_eq_true_eq] at hpb
    exact key_inj_of_pairwise (fun q => q.id) hids hb hr (hpb.2.1.trans hid.symm)
  have hhead := head_filter_unique hr hpred huniq
  simp only [verifyHandler]
  rw [if_neg (by simp [hne, hnc, hnid]), hhead]
  simp only []
  rw [if_neg (by intro hcontra; exact hcontra hhash.symm)]

/-- Failure computation of the verify handler: when no stored row
satisfies both the query filter and the digest comparison, the handler
answers 401 with the generic message and writes nothing. -/
theorem verifyHandler_unauthorized (hash : String → String) (cookieName : String) (ttlHours : Nat)
    (authDb : List AuthCodeRow) (sessionDb : List SessionRow)
    (emailRaw codeRaw cidRaw : String) (now : Nat) (token ip ua : String)
    (hne : ¬ normalizeEmail emailRaw = "") (hnc : ¬ jsTrim codeRaw = "")
    (hnid : ¬ jsTrim cidRaw = "")
    (hnone : ¬ ∃ r ∈ authDb,
      verifyQueryPred (normalizeEmail emailRaw) (jsTrim cidRaw) now r = true ∧
      r.code_hash =
        hash (codeBinding (jsTrim codeRaw) (normalizeEmail emailRaw) (jsTrim cidRaw))) :
    verifyHandler hash cookieName ttlHours authDb sessionDb emailRaw codeRaw cidRaw now token ip ua =
      ⟨errorResponse 401 "Invalid or expired code." [], authDb, sessionDb⟩ := by
  simp only [verifyHandler]
  rw [if_neg (by simp [hne, hnc, hnid])]
  rcases hl : (authDb.filter
      (verifyQueryPred (normalizeEmail emailRaw) (jsTrim cidRaw) now)) with _ | ⟨a, t⟩
  · rfl
  · simp only [List.head?]
    have hmem : a ∈ authDb.filter
        (verifyQueryPred (normalizeEmail emailRaw) (jsTrim cidRaw) now) := by
      rw [hl]; exact List.mem_cons_self a t
    have ⟨hain, hapred⟩ := List.mem_filter.mp hmem
    have hnehash : hash (codeBinding (jsTrim codeRaw) (normalizeEmail emailRaw)
        (jsTrim cidRaw)) ≠ a.code_hash := by
      intro heq
      exact hnone ⟨a, hain, hapred, heq.symm⟩
    rw [if_pos hnehash]

/-- C1: for every VerifyCode request with non-empty email, code and
challengeId, the handler responds 401 "Invalid or expired code." unless
a stored AuthCode row exists whose id equals the challengeId, whose
email equals the normalized email, whose `consumed_at` is null, whose
`expires_at` is strictly in the future, and whose stored `code_hash`
equals the recomputed digest of `code:<code>:<email>:<challengeId>`;
only when all of these hold does it mint a session row and respond 200
with a Set-Cookie header. -/
theorem claim_C1_verify_code_gate (hash : String → String) (cookieName : String) (ttlHours : Nat)
    (authDb : List AuthCodeRow) (sessionDb : List SessionRow)
    (emailRaw codeRaw cidRaw : String) (now : Nat) (token ip ua : String)
    (o : VerifyOutcome)
    (ho : o = verifyHandler hash cookieName ttlHours authDb sessionDb
      emailRaw codeRaw cidRaw now token ip ua)
    (hids : authDb.Pairwise (fun a b => a.id ≠ b.id))
    (hne : ¬ normalizeEmail emailRaw = "") (hnc : ¬ jsTrim codeRaw = "")
    (hnid : ¬ jsTrim cidRaw = "") :
    ((∃ r ∈ authDb, r.id = jsTrim cidRaw ∧ r.email = normalizeEmail emailRaw ∧
        r.consumed_at = none ∧ now < r.expires_at ∧
        r.code_hash =
          hash (codeBinding (jsTrim codeRaw) (normalizeEmail emailRaw) (jsTrim cidRaw)))
      ↔ (o.resp.status = 200 ∧ o.resp.setCookie.isSome = true ∧
          o.sessionDb = sessionDb ++ [sessionRowOf hash token (normalizeEmail emailRaw)
            (now + ttlHours * 3600 * 1000) ip ua now]))
    ∧ ((¬ ∃ r ∈ authDb, r.id = jsTrim cidRaw ∧ r.email = normalizeEmail emailRaw ∧
        r.consumed_at = none ∧ now < r.expires_at ∧
        r.code_hash =
          hash (codeBinding (jsTrim codeRaw) (normalizeEmail emailRaw) (jsTrim cidRaw))) →
      o = ⟨errorResponse 401 "Invalid or expired code." [], authDb, sessionDb⟩) := by
  by_cases hex : ∃ r ∈ authDb, r.id = jsTrim cidRaw ∧ r.email = normalizeEmail emailRaw ∧
      r.consumed_at = none ∧ now < r.expires_at ∧
      r.code_hash = hash (codeBinding (jsTrim codeRaw) (normalizeEmail emailRaw) (jsTrim cidRaw))
  · obtain ⟨r, hr, hid, hem, hcon, hexp, hhash⟩ := hex
    have hsucc := verifyHandler_success hash cookieName ttlHours sessionDb token ip ua
      hids hne hnc hnid hr hid hem hcon hexp hhash
    rw [hsucc] at ho
    subst ho
    refine ⟨⟨fun _ => ⟨rfl, rfl, rfl⟩, fun _ => ⟨r, hr, hid, hem, hcon, hexp, hhash⟩⟩, ?_⟩
    intro hn
    exact absurd ⟨r, hr, hid, hem, hcon, hexp, hhash⟩ hn
  · have hfail := verifyHandler_unauthorized hash cookieName ttlHours authDb sessionDb
      emailRaw codeRaw cidRaw now token ip ua hne hnc hnid (by
        intro ⟨r, hr, hpred, hhash⟩
        simp only [verifyQueryPred, decide_eq_true_eq] at hpred
        exact hex ⟨r, hr, hpred.2.1, hpred.1, hpred.2.2.1, hpred.2.2.2, hhash⟩)
    rw [hfail] at ho
    subst ho
    refine ⟨iff_of_false hex ?_, fun _ => rfl⟩
    intro ⟨h200, _⟩
    simp [errorResponse] at h200

/-- Concrete instantiation of C1: with the identity digest and a single
freshly issued row, a correct code verifies with a 200 and a cookie. -/
theorem claim_C1_verify_code_gate_witness :
    (verifyHandler (fun s => s) "tfm_forms_session" 168
      [⟨"ch1", "ops@example.com", "code:123456:ops@example.com:ch1", 100, none, "", ""⟩] []
      "ops@example.com" "123456" "ch1" 5 "tok" "" "").resp.status = 200 := by
  have h := claim_C1_verify_code_gate (fun s => s) "tfm_forms_session" 168
    [⟨"ch1", "ops@example.com", "code:123456:ops@example.com:ch1", 100, none, "", ""⟩] []
    "ops@example.com" "123456" "ch1" 5 "tok" "" "" _ rfl
    (by decide) (by decide) (by decide) (by decide)
  exact (h.1.mp (by decide)).1

/-- C2: for a freshly issued code row, a first VerifyCode call with the
correct code and challenge succeeds, every row with that challenge id
has its `consumed_at` set to the call time (the null→timestamp
transition happens in this call and only in it), and a second
VerifyCode call with the same code and challenge against the updated
collection answers 401 and leaves the collections unchanged. -/
theorem claim_C2_code_single_use (hash : String → String) (cookieName : String) (ttlHours : Nat)
    (authDb : List AuthCodeRow) (sessionDb : List SessionRow)
    (emailRaw codeRaw cidRaw : String) (now1 : Nat) (token1 ip ua : String)
    (exp : Nat) (rip rua : String)
    (hids : authDb.Pairwise (fun a b => a.id ≠ b.id))
    (hne : ¬ normalizeEmail emailRaw = "") (hnc : ¬ jsTrim codeRaw = "")
    (hnid : ¬ jsTrim cidRaw = "")
    (hr : loginAuthRow hash (jsTrim codeRaw) (normalizeEmail emailRaw) (jsTrim cidRaw)
      exp rip rua ∈ authDb)
    (hexp : now1 < exp) :
    (verifyHandler hash cookieName ttlHours authDb sessionDb
        emailRaw codeRaw cidRaw now1 token1 ip ua).resp.status = 200 ∧
    (∀ q ∈ (verifyHandler hash cookieName ttlHours authDb sessionDb
        emailRaw codeRaw cidRaw now1 token1 ip ua).authDb,
      q.id = jsTrim cidRaw → q.consumed_at = some now1) ∧
    (∀ now2 : Nat, ∀ token2 ip2 ua2 : String,
      verifyHandler hash cookieName ttlHours
          (verifyHandler hash cookieName ttlHours authDb sessionDb
            emailRaw codeRaw cidRaw now1 token1 ip ua).authDb
          (verifyHandler hash cookieName ttlHours authDb sessionDb
            emailRaw codeRaw cidRaw now1 token1 ip ua).sessionDb
          emailRaw codeRaw cidRaw now2 token2 ip2 ua2 =
        ⟨errorResponse 401 "Invalid or expired code." [],
          (verifyHandler hash cookieName ttlHours authDb sessionDb
            emailRaw codeRaw cidRaw now1 token1 ip ua).authDb,
          (verifyHandler hash cookieName ttlHours authDb sessionDb
            emailRaw codeRaw cidRaw now1 token1 ip ua).sessionDb⟩) := by
  have hsucc := verifyHandler_success hash cookieName ttlHours sessionDb token1 ip ua
    hids hne hnc hnid hr rfl rfl rfl hexp rfl
  rw [hsucc]
  refine ⟨rfl, ?_, ?_⟩
  · intro q hq hqid
    simp only [List.mem_map] at hq
    obtain ⟨p, _, hpq⟩ := hq
    by_cases hp : p.id = jsTrim cidRaw
    · rw [if_pos hp] at hpq
      rw [← hpq]
    · rw [if_neg hp] at hpq
      rw [← hpq] at hqid
      exact absurd hqid hp
  · intro now2 token2 ip2 ua2
    apply verifyHandler_unauthorized _ _ _ _ _ _ _ _ _ _ _ _ hne hnc hnid
    intro ⟨q, hq, hpred, _⟩
    simp only [verifyQueryPred, decide_eq_true_eq] at hpred
    simp only [List.mem_map] at hq
    obtain ⟨p, _, hpq⟩ := hq
    by_cases hp : p.id = jsTrim cidRaw
    · rw [if_pos hp] at hpq
      rw [← hpq] at hpred
      simp at hpred
    · rw [if_neg hp] at hpq
      rw [← hpq] at hpred
      exact absurd hpred.2.1 hp

/-- Concrete instantiation of C2: the second use of the same code and
challenge against the updated collection answers 401. -/
theorem claim_C2_code_single_use_witness :
    (verifyHandler (fun s => s) "tfm_forms_session" 168
        (verifyHandler (fun s => s) "tfm_forms_session" 168
          [TFM.loginAuthRow (fun s => s) "123456" "ops@example.com" "ch1" 100 "" ""] []
          "ops@example.com" "123456" "ch1" 5 "tok1" "" "").authDb
        (verifyHandler (fun s => s) "tfm_forms_session" 168
          [TFM.loginAuthRow (fun s => s) "123456" "ops@example.com" "ch1" 100 "" ""] []
          "ops@example.com" "123456" "ch1" 5 "tok1" "" "").sessionDb
        "ops@example.com" "123456" "ch1" 9 "tok2" "" "").resp.status = 401 := by
  have h := claim_C2_code_single_use (fun s => s) "tfm_forms_session" 168
    [TFM.loginAuthRow (fun s => s) "123456" "ops@example.com" "ch1" 100 "" ""] []
    "ops@example.com" "123456" "ch1" 5 "tok1" "" "" 100 "" ""
    (by decide) (by decide) (by decide) (by decide) (by decide) (by decide)
  rw [h.2.2 9 "tok2" "" ""]
  rfl

/-- Success computation of the submit handler: with a known site (store
has unique site ids), a matching nonempty site key, and an origin that
is absent, allowed by an empty allow-list, or listed, the handler
appends exactly one submission row carrying the request data verbatim
and returns 200 with the site's CORS headers. -/
theorem submitHandler_success (siteDb : List SiteRow) (subDb : List SubmissionRow)
    (originHeader : String) (siteIdRaw : String) (formIdRaw : Option String)
    (d : List (String × String)) (metaPageUrl metaReferrer : Option String)
    (referrerHeader ip ua : String) (now : Nat) {s : SiteRow}
    (hsids : siteDb.Pairwise (fun a b => a.site_id ≠ b.site_id))
    (hs : s ∈ siteDb) (hsid : s.site_id = jsTrim siteIdRaw)
    (hne : ¬ jsTrim siteIdRaw = "") (hkne : ¬ s.site_key = "")
    (horig : getAllowedOrigins s = [] ∨ originHeader = "" ∨
      originHeader ∈ getAllowedOrigins s) :
    submitHandler siteDb subDb originHeader (some s.site_key) siteIdRaw formIdRaw (some d)
      metaPageUrl metaReferrer referrerHeader ip ua now =
      ⟨⟨200, true, "", [], [], none, buildCorsHeaders originHeader (getAllowedOrigins s)⟩,
        subDb ++ [{ id := 0
                    site_id := jsTrim siteIdRaw
                    form_id :=
                      match formIdRaw with
                      | some f => if f = "" then none else some (jsTrim f)
                      | none => none
                    data := d
                    origin := originHeader
                    ip := ip
                    user_agent := ua
                    page_url :=
                      match metaPageUrl with
                      | some p => if p = "" then none else some p
                      | none => none
                    referrer :=
                      match jsOrElse (metaReferrer.getD "") referrerHeader with
                      | r => if r = "" then none else some r
                    submitted_at := now }]⟩ := by
  have hpred : (fun q : SiteRow => decide (q.site_id = jsTrim siteIdRaw)) s = true := by
    simp [hsid]
  have huniq : ∀ b ∈ siteDb,
      (fun q : SiteRow => decide (q.site_id = jsTrim siteIdRaw)) b = true → b = s := by
    intro b hb hpb
    simp only [decide_eq_true_eq] at hpb
    exact key_inj_of_pairwise (fun q => q.site_id) hsids hb hs (hpb.trans hsid.symm)
  have hhead := head_filter_unique hs hpred huniq
  simp only [submitHandler]
  rw [if_neg hne, hhead]
  simp only []
  rw [if_neg (by simp [hkne])]
  rw [if_neg (by
    rintro ⟨hall, hor, hnot⟩
    rcases horig with h | h | h
    · exact hall h
    · exact hor h
    · exact hnot h)]

/-- C3: for every Submit call, an empty siteId or absent data yields
400; an unknown siteId yields 401 "Invalid site."; a missing or
mismatched `X-Forms-Site-Key` header yields 401 "Invalid site key.";
a present origin outside a non-empty allow-list yields 403 "Origin not
allowed."; otherwise exactly one Submission row is stored whose data
equals the request's data object verbatim and the response is 200 with
success.  Site keys are nonempty operator-provisioned secrets and site
ids are store-unique. -/
theorem claim_C3_submit_flow (siteDb : List SiteRow) (subDb : List SubmissionRow)
    (originHeader : String) (siteKeyHeader : Option String)
    (siteIdRaw : String) (formIdRaw : Option String)
    (data : Option (List (String × String)))
    (metaPageUrl metaReferrer : Option String)
    (referrerHeader ip ua : String) (now : Nat)
    (o : SubmitOutcome)
    (ho : o = submitHandler siteDb subDb originHeader siteKeyHeader siteIdRaw formIdRaw data
      metaPageUrl metaReferrer referrerHeader ip ua now)
    (hsids : siteDb.Pairwise (fun a b => a.site_id ≠ b.site_id)) :
    ((jsTrim siteIdRaw = "" ∨ data = none) → o.resp.status = 400 ∧ o.subDb = subDb)
    ∧ (¬ jsTrim siteIdRaw = "" → data ≠ none →
        (¬ ∃ s ∈ siteDb, s.site_id = jsTrim siteIdRaw) →
        o.resp = errorResponse 401 "Invalid site." (initialCorsHeaders originHeader) ∧
        o.subDb = subDb)
    ∧ (∀ s ∈ siteDb, s.site_id = jsTrim siteIdRaw → ¬ jsTrim siteIdRaw = "" → data ≠ none →
        ¬ s.site_key = "" →
        (siteKeyHeader = none ∨ ∀ k, siteKeyHeader = some k → k ≠ s.site_key) →
        o.resp = errorResponse 401 "Invalid site key."
          (buildCorsHeaders originHeader (getAllowedOrigins s)) ∧
        o.subDb = subDb)
    ∧ (∀ s ∈ siteDb, s.site_id = jsTrim siteIdRaw → ¬ jsTrim siteIdRaw = "" → data ≠ none →
        ¬ s.site_key = "" → siteKeyHeader = some s.site_key →
        getAllowedOrigins s ≠ [] → originHeader ≠ "" →
        originHeader ∉ getAllowedOrigins s →
        o.resp = errorResponse 403 "Origin not allowed."
          (buildCorsHeaders originHeader (getAllowedOrigins s)) ∧
        o.subDb = subDb)
    ∧ (∀ s ∈ siteDb, s.site_id = jsTrim siteIdRaw → ¬ jsTrim siteIdRaw = "" →
        ∀ d, data = some d → ¬ s.site_key = "" → siteKeyHeader = some s.site_key →
        (getAllowedOrigins s = [] ∨ originHeader = "" ∨
          originHeader ∈ getAllowedOrigins s) →
        o.resp.status = 200 ∧ o.resp.ok = true ∧
        ∃ row, o.subDb = subDb ++ [row] ∧ row.data = d) := by
  refine ⟨?_, ?_, ?_, ?_, ?_⟩
  · intro h
    subst ho
    simp only [submitHandler]
    by_cases h1 : jsTrim siteIdRaw = ""
    · rw [if_pos h1]
      exact ⟨rfl, rfl⟩
    · rw [if_neg h1]
      rcases h with h | h2
      · exact absurd h h1
      · subst h2
        exact ⟨rfl, rfl⟩
  · intro hns hdne hnex
    subst ho
    rcases data with _ | d
    · exact absurd rfl hdne
    · have hhead : (siteDb.filter
          (fun q : SiteRow => decide (q.site_id = jsTrim siteIdRaw))).head? = none := by
        apply head_filter_none
        intro b hb hpb
        simp only [decide_eq_true_eq] at hpb
        exact hnex ⟨b, hb, hpb⟩
      simp only [submitHandler]
      rw [if_neg hns, hhead]
      exact ⟨rfl, rfl⟩
  · intro s hs hsid hns hdne hkne hkbad
    rcases data with _ | d
    · exact absurd rfl hdne
    · have hpred : (fun q : SiteRow => decide (q.site_id = jsTrim siteIdRaw)) s = true := by
        simp [hsid]
      have huniq : ∀ b ∈ siteDb,
          (fun q : SiteRow => decide (q.site_id = jsTrim siteIdRaw)) b = true → b = s := by
        intro b hb hpb
        simp only [decide_eq_true_eq] at hpb
        exact key_inj_of_pairwise (fun q => q.site_id) hsids hb hs (hpb.trans hsid.symm)
      have hhead := head_filter_unique hs hpred huniq
      subst ho
      simp only [submitHandler]
      rw [if_neg hns, hhead]
      simp only []
      have hcond : siteKeyHeader.getD "" = "" ∨ siteKeyHeader.getD "" ≠ s.site_key := by
        rcases hkbad with h | h
        · rw [h]
          exact Or.inl rfl
        · rcases siteKeyHeader with _ | k
          · exact Or.inl rfl
          · exact Or.inr (h k rfl)
      rw [if_pos hcond]
      exact ⟨rfl, rfl⟩
  · intro s hs hsid hns hdne hkne hkey hall hor hnot
    rcases data with _ | d
    · exact absurd rfl hdne
    · have hpred : (fun q : SiteRow => decide (q.site_id = jsTrim siteIdRaw)) s = true := by
        simp [hsid]
      have huniq : ∀ b ∈ siteDb,
          (fun q : SiteRow => decide (q.site_id = jsTrim siteIdRaw)) b = true → b = s := by
        intro b hb hpb
        simp only [decide_eq_true_eq] at hpb
        exact key_inj_of_pairwise (fun q => q.site_id) hsids hb hs (hpb.trans hsid.symm)
      have hhead := head_filter_unique hs hpred huniq
      subst ho hkey
      simp only [submitHandler]
      rw [if_neg hns, hhead]
      simp only []
      rw [if_neg (by simp [hkne])]
      rw [if_pos ⟨hall, hor, hnot⟩]
      exact ⟨rfl, rfl⟩
  · intro s hs hsid hns d hd hkne hkey horig
    subst ho hkey hd
    rw [submitHandler_success siteDb subDb originHeader siteIdRaw formIdRaw d
      metaPageUrl metaReferrer referrerHeader ip ua now hsids hs hsid hns hkne horig]
    exact ⟨rfl, rfl, ⟨_, rfl, rfl⟩⟩

/-- Concrete instantiation of C3: a valid submission against a one-site
store is accepted with a 200 and stores a row carrying the data. -/
theorem claim_C3_submit_flow_witness :
    (submitHandler [⟨"site-1", "Site One", "key-1", none⟩] []
        "https://a.example" (some "key-1") "site-1" none (some [("name", "Ada")])
        none none "" "" "" 7).resp.status = 200 := by
  have h := claim_C3_submit_flow [⟨"site-1", "Site One", "key-1", none⟩] []
    "https://a.example" (some "key-1") "site-1" none (some [("name", "Ada")])
    none none "" "" "" 7 _ rfl (by decide)
  exact (h.2.2.2.2 ⟨"site-1", "Site One", "key-1", none⟩ (by decide) (by decide)
    (by decide) [("name", "Ada")] rfl (by decide) rfl (Or.inl (by decide))).1

/-- C10: a Submit request with no Origin header gets
`Access-Control-Allow-Origin: null` from `buildCorsHeaders` — for every
allow-list, the empty (allow-any) one included — yet the submission
itself still succeeds when the site key matches, because the 403 origin
check only applies when an Origin header is present. -/
theorem claim_C10_null_origin_cors (siteDb : List SiteRow) (subDb : List SubmissionRow)
    (siteIdRaw : String) (formIdRaw : Option String) (d : List (String × String))
    (metaPageUrl metaReferrer : Option String)
    (referrerHeader ip ua : String) (now : Nat) (s : SiteRow)
    (hsids : siteDb.Pairwise (fun a b => a.site_id ≠ b.site_id))
    (hs : s ∈ siteDb) (hsid : s.site_id = jsTrim siteIdRaw)
    (hne : ¬ jsTrim siteIdRaw = "") (hkne : ¬ s.site_key = "") :
    (∀ allowedOrigins : List String,
      ("Access-Control-Allow-Origin", "null") ∈ buildCorsHeaders "" allowedOrigins)
    ∧ (submitHandler siteDb subDb "" (some s.site_key) siteIdRaw formIdRaw (some d)
        metaPageUrl metaReferrer referrerHeader ip ua now).resp.status = 200
    ∧ ("Access-Control-Allow-Origin", "null") ∈
        (submitHandler siteDb subDb "" (some s.site_key) siteIdRaw formIdRaw (some d)
          metaPageUrl metaReferrer referrerHeader ip ua now).resp.headers
    ∧ ∃ row, (submitHandler siteDb subDb "" (some s.site_key) siteIdRaw formIdRaw (some d)
        metaPageUrl metaReferrer referrerHeader ip ua now).subDb = subDb ++ [row] := by
  have hsucc := submitHandler_success siteDb subDb "" siteIdRaw formIdRaw d
    metaPageUrl metaReferrer referrerHeader ip ua now hsids hs hsid hne hkne
    (Or.inr (Or.inl rfl))
  rw [hsucc]
  refine ⟨?_, rfl, ?_, ⟨_, rfl⟩⟩
  · intro allowedOrigins
    simp [buildCorsHeaders]
  · simp [buildCorsHeaders]

/-- Concrete instantiation of C10: an origin-less submission against a
site with a non-empty allow-list succeeds and carries the "null"
allow-origin header. -/
theorem claim_C10_null_origin_cors_witness :
    (submitHandler [⟨"site-1", "Site One", "key-1", some ["https://a.example"]⟩] []
        "" (some "key-1") "site-1" none (some [("name", "Ada")])
        none none "" "" "" 7).resp.status = 200 := by
  have h := claim_C10_null_origin_cors
    [⟨"site-1", "Site One", "key-1", some ["https://a.example"]⟩] []
    "site-1" none [("name", "Ada")] none none "" "" "" 7
    ⟨"site-1", "Site One", "key-1", some ["https://a.example"]⟩
    (by decide) (by decide) (by decide) (by decide) (by decide)
  exact h.2.1

/-- C4: the stored AuthCode row's `code_hash` is exactly the digest of
`code:<code>:<email>:<challengeId>` and every other field of the row is
independent of the plaintext code; the stored Session row's
`token_hash` is exactly the digest of `session:<token>` and every other
field is independent of the plaintext token.  So each stored digest is
bound to its context and the plaintext secrets reach the row store only
through the one-way digest. -/
theorem claim_C4_secrets_hashed_only :
    (∀ (hash : String → String) (code email cid : String) (exp : Nat) (ip ua : String),
      (loginAuthRow hash code email cid exp ip ua).code_hash =
        hash ("code:" ++ code ++ ":" ++ email ++ ":" ++ cid))
    ∧ (∀ (hash : String → String) (c1 c2 email cid : String) (exp : Nat) (ip ua : String),
      { loginAuthRow hash c1 email cid exp ip ua with code_hash := "" } =
      { loginAuthRow hash c2 email cid exp ip ua with code_hash := "" })
    ∧ (∀ (hash : String → String) (token email : String) (exp : Nat) (ip ua : String)
        (now : Nat),
      (sessionRowOf hash token email exp ip ua now).token_hash =
        hash ("session:" ++ token))
    ∧ (∀ (hash : String → String) (t1 t2 email : String) (exp : Nat) (ip ua : String)
        (now : Nat),
      { sessionRowOf hash t1 email exp ip ua now with token_hash := "" } =
      { sessionRowOf hash t2 email exp ip ua now with token_hash := "" }) :=
  ⟨fun _ _ _ _ _ _ _ => rfl, fun _ _ _ _ _ _ _ _ => rfl,
   fun _ _ _ _ _ _ _ => rfl, fun _ _ _ _ _ _ _ _ => rfl⟩

/-- C7 fails on the code: when the row store responds non-2xx during a
login request, the 500 response's message is the thrown
`Supabase error: <upstream body text>` — the upstream response body
text is included in the message returned to the caller, here as its
suffix. -/
theorem claim_C7_counterexample :
    (loginStoreFailureResponse 403 "permission denied for table forms_auth_codes").status = 500
    ∧ (loginStoreFailureResponse 403 "permission denied for table forms_auth_codes").message =
        "Supabase error: permission denied for table forms_auth_codes"
    ∧ List.IsSuffix "permission denied for table forms_auth_codes".data
        (loginStoreFailureResponse 403 "permission denied for table forms_auth_codes").message.data :=
  ⟨rfl, by decide, ⟨"Supabase error: ".data, by decide⟩⟩

/-- C7 amended: on a row-store non-2xx the handler maps the failure to
a 500 whose message is `Supabase error: ` followed by the upstream
response body text verbatim; the upstream HTTP status code does not
influence the response. -/
theorem claim_C7_store_error_message (upstreamStatus upstreamStatus2 : Nat)
    (upstreamBody : String) :
    loginStoreFailureResponse upstreamStatus upstreamBody =
      errorResponse 500 ("Supabase error: " ++ upstreamBody) []
    ∧ loginStoreFailureResponse upstreamStatus upstreamBody =
      loginStoreFailureResponse upstreamStatus2 upstreamBody := by
  have hmsg : jsOrElse ("Supabase error: " ++ upstreamBody) "Unable to send code." =
      "Supabase error: " ++ upstreamBody := by
    unfold jsOrElse
    rw [if_neg (append_ne_empty_left _ _ (by decide))]
  constructor
  · unfold loginStoreFailureResponse supabaseErrorMessage
    rw [hmsg]
  · rfl

/-- C6 fails on the code: with a valid (non-expired, hash-matching)
session row in the store, the /me request succeeds while the
`last_used_at` refresh write succeeds, but the very same request
returns a 500 — the parent request fails and the caller does not
receive the session's email — when the refresh write errors, because
`getSessionFromRequest` awaits the PATCH with no try/catch around it. -/
theorem claim_C6_refresh_failure_fails_request :
    meHandler (fun s => s) "tfm_forms_session" "tfm_forms_session=tok1"
        [⟨7, "ops@example.com", "session:tok1", 1000, "", "", 0⟩] 5 (.ok ()) =
      ⟨200, true, "", [("email", "ops@example.com"), ("expiresAt", "1000")], [], none, []⟩
    ∧ meHandler (fun s => s) "tfm_forms_session" "tfm_forms_session=tok1"
        [⟨7, "ops@example.com", "session:tok1", 1000, "", "", 0⟩] 5
        (.error "Supabase error: update failed") =
      errorResponse 500 "Supabase error: update failed" [] := by
  exact ⟨by decide, by decide⟩

/-- C5 fails on the code: the submissions read path's column projection
includes the `ip` column, so it is not the 8-column projection the
claim states. -/
theorem claim_C5_counterexample :
    "ip" ∈ submissionsSelect ∧
    submissionsSelect ≠
      ["id", "site_id", "form_id", "submitted_at", "origin", "page_url", "referrer", "data"] := by
  decide

/-- C5 amended: returned rows are ordered by `submitted_at` descending
and each returned object carries exactly the column projection
(id, site_id, form_id, submitted_at, origin, ip, page_url, referrer,
data): `user_agent` is excluded from this read path, but `ip` is
included. -/
theorem claim_C5_submissions_projection :
    (∀ (subDb : List SubmissionRow) (limit : Nat) (siteId : Option String),
      List.Sorted byNewest (listSubmissions subDb limit siteId))
    ∧ (∀ r : SubmissionRow, (projectSubmission r).map Prod.fst = submissionsSelect)
    ∧ submissionsSelect =
        ["id", "site_id", "form_id", "submitted_at", "origin", "ip", "page_url",
          "referrer", "data"]
    ∧ "user_agent" ∉ submissionsSelect := by
  refine ⟨?_, ?_, rfl, by decide⟩
  · intro subDb limit siteId
    unfold listSubmissions
    exact (List.sorted_insertionSort byNewest _).sublist (List.take_sublist _ _)
  · intro r
    rfl

/-- The effective limit for a parameter that parses to a nonzero number
is the clamp of that number to [1, 200]. -/
theorem effectiveLimit_parsed (s : String) (n : Int)
    (hp : jsParseInt s = some n) (hn0 : n ≠ 0) :
    effectiveLimit (some s) = min (max n 1) 200 := by
  have hs : ¬ s = "" := by
    intro h
    subst h
    simp [jsParseInt, digitsPrefixVal, List.takeWhile] at hp
  have hlp : jsOrElse s "50" = s := by
    unfold jsOrElse
    rw [if_neg hs]
  simp only [effectiveLimit]
  rw [hlp, hp]
  simp only []
  rw [if_neg hn0]

/-- C8: the effective limit of the submissions read is the clamp of the
parsed limit parameter to [1, 200]: "9999" yields 200; "0", "abc" and
an absent parameter yield the default 50; any input parsing to a number
between 1 and 200 is used unchanged. -/
theorem claim_C8_limit_clamp :
    effectiveLimit (some "9999") = 200
    ∧ effectiveLimit (some "0") = 50
    ∧ effectiveLimit (some "abc") = 50
    ∧ effectiveLimit none = 50
    ∧ (∀ (s : String) (n : Int), jsParseInt s = some n → n ≠ 0 →
        effectiveLimit (some s) = min (max n 1) 200)
    ∧ (∀ (s : String) (n : Int), jsParseInt s = some n → 1 ≤ n → n ≤ 200 →
        effectiveLimit (some s) = n) := by
  refine ⟨by decide, by decide, by decide, by decide, effectiveLimit_parsed, ?_⟩
  intro s n hp h1 h200
  rw [effectiveLimit_parsed s n hp (by omega)]
  omega

/-- Concrete instantiation of C8: a numeric input inside [1, 200] is
used unchanged. -/
theorem claim_C8_limit_clamp_witness : effectiveLimit (some "150") = 150 :=
  claim_C8_limit_clamp.2.2.2.2.2 "150" 150 (by decide) (by decide) (by decide)

/-- The digit character of a value below ten evaluates back to it. -/
theorem digitChar_val {d : Nat} (h : d < 10) : (digitChar d).toNat - 48 = d := by
  interval_cases d <;> rfl

/-- Every digit character lies in the ASCII digit range. -/
theorem digitChar_mem_range (d : Nat) : '0' ≤ digitChar d ∧ digitChar d ≤ '9' := by
  unfold digitChar
  split <;> exact ⟨by decide, by decide⟩

/-- Appending one character multiplies the accumulated value by ten and
adds the digit. -/
theorem valDigits_append_one (l : List Char) (c : Char) :
    valDigits (l ++ [c]) = 10 * valDigits l + (c.toNat - 48) := by
  unfold valDigits
  rw [List.foldl_append]
  rfl

/-- The decimal representation evaluates back to the number it
represents, for sufficient fuel. -/
theorem valDigits_go : ∀ (fuel n : Nat), n < fuel → valDigits (jsNatReprGo fuel n) = n := by
  intro fuel
  induction fuel with
  | zero => intro n h; omega
  | succ f ih =>
    intro n h
    simp only [jsNatReprGo]
    by_cases h10 : n < 10
    · rw [if_pos h10]
      show 10 * 0 + ((digitChar n).toNat - 48) = n
      rw [digitChar_val h10]
      omega
    · rw [if_neg h10]
      have hdiv : n / 10 < f := by omega
      rw [valDigits_append_one, ih (n / 10) hdiv, digitChar_val (Nat.mod_lt n (by omega))]
      omega

/-- The decimal representation of a number below `10 ^ k` has at most
`k` digits, for sufficient fuel. -/
theorem jsNatReprGo_length : ∀ (fuel n k : Nat), n < fuel → 1 ≤ k → n < 10 ^ k →
    (jsNatReprGo fuel n).length ≤ k := by
  intro fuel
  induction fuel with
  | zero => intro n k h; omega
  | succ f ih =>
    intro n k h hk hnk
    simp only [jsNatReprGo]
    by_cases h10 : n < 10
    · rw [if_pos h10]
      simpa using hk
    · rw [if_neg h10]
      have hk2 : 2 ≤ k := by
        by_contra hc
        have hk1 : k = 1 := by omega
        subst hk1
        rw [pow_one] at hnk
        omega
      have hpow : 10 ^ k = 10 * 10 ^ (k - 1) := by
        have hs : k - 1 + 1 = k := by omega
        calc 10 ^ k = 10 ^ (k - 1 + 1) := by rw [hs]
        _ = 10 ^ (k - 1) * 10 := pow_succ 10 (k - 1)
        _ = 10 * 10 ^ (k - 1) := by ring
      have hdivk : n / 10 < 10 ^ (k - 1) := by
        rw [hpow] at hnk
        omega
      have hdiv : n / 10 < f := by omega
      have hrec := ih (n / 10) (k - 1) hdiv (by omega) hdivk
      rw [List.length_append]
      simp only [List.length_singleton]
      omega

/-- Every character of the decimal representation is an ASCII digit. -/
theorem jsNatReprGo_digits : ∀ (fuel n : Nat), ∀ c ∈ jsNatReprGo fuel n,
    '0' ≤ c ∧ c ≤ '9' := by
  intro fuel
  induction fuel with
  | zero =>
    intro n c hc
    simp [jsNatReprGo] at hc
  | succ f ih =>
    intro n c hc
    simp only [jsNatReprGo] at hc
    by_cases h10 : n < 10
    · rw [if_pos h10] at hc
      simp at hc
      subst hc
      exact digitChar_mem_range n
    · rw [if_neg h10] at hc
      rw [List.mem_append] at hc
      rcases hc with hc | hc
      · exact ih (n / 10) c hc
      · simp at hc
        subst hc
        exact digitChar_mem_range (n % 10)

/-- Leading zero padding does not change the value of a digit string. -/
theorem valDigits_replicate_zeros : ∀ (k : Nat) (l : List Char),
    valDigits (List.replicate k '0' ++ l) = valDigits l := by
  intro k
  induction k with
  | zero => intro l; rw [List.replicate_zero, List.nil_append]
  | succ m ih =>
    intro l
    rw [List.replicate_succ, List.cons_append]
    show List.foldl (fun a c => 10 * a + (c.toNat - 48)) 0
      ('0' :: (List.replicate m '0' ++ l)) = valDigits l
    rw [List.foldl_cons]
    exact ih l

/-- The padded 6-digit code string evaluates back to its residue. -/
theorem valDigits_pad6 (n : Nat) (h : n < 1000000) : valDigits (pad6 n).data = n := by
  show valDigits (List.replicate (6 - (jsNatRepr n).length) '0' ++ jsNatRepr n) = n
  rw [valDigits_replicate_zeros]
  exact valDigits_go (n + 1) n (Nat.lt_succ_self n)

/-- The code formatter is injective on the residues it is applied to. -/
theorem pad6_inj {a b : Nat} (ha : a < 1000000) (hb : b < 1000000)
    (h : pad6 a = pad6 b) : a = b := by
  have hv := congrArg (fun s : String => valDigits s.data) h
  simp only [valDigits_pad6 a ha, valDigits_pad6 b hb] at hv
  exact hv

/-- The generated code string always has exactly six characters. -/
theorem pad6_length (n : Nat) (h : n < 1000000) : (pad6 n).length = 6 := by
  have hlen : (jsNatRepr n).length ≤ 6 :=
    jsNatReprGo_length (n + 1) n 6 (Nat.lt_succ_self n) (by norm_num)
      (by norm_num; omega)
  show (List.replicate (6 - (jsNatRepr n).length) '0' ++ jsNatRepr n).length = 6
  rw [List.length_append, List.length_replicate]
  omega

/-- Counting lemma: among the `2 ^ 32` possible 32-bit samples, each
residue mod 1000000 below `2 ^ 32 % 1000000 = 967296` occurs 4295
times and each residue at or above it occurs 4294 times. -/
theorem count_residue (r : Nat) (hr : r < 1000000) :
    ((Finset.range 4294967296).filter (fun x => x % 1000000 = r)).card =
      if r < 967296 then 4295 else 4294 := by
  have himg : (Finset.range 4294967296).filter (fun x => x % 1000000 = r) =
      (Finset.range (if r < 967296 then 4295 else 4294)).image
        (fun k => r + 1000000 * k) := by
    ext x
    simp only [Finset.mem_filter, Finset.mem_range, Finset.mem_image]
    constructor
    · rintro ⟨h1, h2⟩
      refine ⟨x / 1000000, ?_, by omega⟩
      by_cases hc : r < 967296
      · rw [if_pos hc]
        omega
      · rw [if_neg hc]
        omega
    · rintro ⟨k, hk, rfl⟩
      by_cases hc : r < 967296
      · rw [if_pos hc] at hk
        exact ⟨by omega, by omega⟩
      · rw [if_neg hc] at hk
        exact ⟨by omega, by omega⟩
  rw [himg, Finset.card_image_of_injective _ (fun k1 k2 hk => by omega),
    Finset.card_range]

/-- The number of 32-bit samples producing the code of residue `r`. -/
theorem codeCount_eq (r : Nat) (hr : r < 1000000) :
    codeCount (pad6 r) = if r < 967296 then 4295 else 4294 := by
  have hfe : ((Finset.range 4294967296).filter (fun x => generateCodeOf x = pad6 r)) =
      ((Finset.range 4294967296).filter (fun x => x % 1000000 = r)) := by
    apply Finset.filter_congr
    intro x _
    constructor
    · intro h
      exact pad6_inj (Nat.mod_lt x (by norm_num)) hr h
    · intro h
      unfold generateCodeOf
      rw [h]
  unfold codeCount
  rw [hfe]
  exact count_residue r hr

/-- C9 fails on the code: the generated codes are not uniform over the
32-bit source.  `2 ^ 32` is not a multiple of 1000000, so the code
"000000" is produced by 4295 of the 4294967296 samples while "999999"
is produced by only 4294 of them. -/
theorem claim_C9_counterexample :
    pad6 0 = "000000" ∧ pad6 999999 = "999999"
    ∧ codeCount "000000" = 4295 ∧ codeCount "999999" = 4294
    ∧ codeCount "000000" ≠ codeCount "999999" := by
  have h0 : pad6 0 = "000000" := by decide
  have h9 : pad6 999999 = "999999" := by decide
  have hc0 : codeCount "000000" = 4295 := by
    rw [← h0, codeCount_eq 0 (by norm_num), if_pos (by norm_num)]
  have hc9 : codeCount "999999" = 4294 := by
    rw [← h9, codeCount_eq 999999 (by norm_num), if_neg (by norm_num)]
  exact ⟨h0, h9, hc0, hc9, by omega⟩

/-- C9 amended: the code generator always produces a 6-character string
of ASCII digits, and over a uniform 32-bit source the distribution is
near-uniform with one step: two codes are produced by the same number
of samples exactly when their values are on the same side of
`2 ^ 32 % 1000000 = 967296` (residues below it get 4295 samples, the
rest 4294). -/
theorem claim_C9_code_distribution :
    (∀ x : Nat, (generateCodeOf x).length = 6 ∧
      ∀ c ∈ (generateCodeOf x).data, '0' ≤ c ∧ c ≤ '9')
    ∧ (∀ r1 r2 : Nat, r1 < 1000000 → r2 < 1000000 →
        (codeCount (pad6 r1) = codeCount (pad6 r2) ↔ (r1 < 967296 ↔ r2 < 967296))) := by
  constructor
  · intro x
    constructor
    · exact pad6_length (x % 1000000) (Nat.mod_lt x (by norm_num))
    · intro c hc
      have hc' : c ∈ List.replicate (6 - (jsNatRepr (x % 1000000)).length) '0' ++
          jsNatRepr (x % 1000000) := hc
      rw [List.mem_append] at hc'
      rcases hc' with h | h
      · have hz := List.eq_of_mem_replicate h
        subst hz
        exact ⟨by decide, by decide⟩
      · exact jsNatReprGo_digits _ _ c h
  · intro r1 r2 h1 h2
    rw [codeCount_eq r1 h1, codeCount_eq r2 h2]
    split_ifs <;> omega

/-- Concrete instantiation of the amended C9: two neighbouring small
codes are produced by the same number of samples. -/
theorem claim_C9_code_distribution_witness :
    codeCount (pad6 3) = codeCount (pad6 4) ↔ ((3:Nat) < 967296 ↔ (4:Nat) < 967296) :=
  claim_C9_code_distribution.2 3 4 (by decide) (by decide)

end TFM
